import Mathlib

/-!
Verification development for the `html-rewriter-readability` pipeline.

The TypeScript sources are shallowly embedded:
* `Phase1Handler` (tree builder) becomes a pure step function over an explicit
  `Phase1State`, folded over a list of parse events;
* the scorer `calculateScoresAndFindBestCandidate` becomes a pure function over
  the element store, with the JavaScript number scores modelled by the exact
  rational type `JNum` below (all score expressions in the source are exact
  decimal/short-fraction computations, and the verified claims do not depend
  on IEEE rounding);
* the serializer `MarkdownConverter.convertNodeRecursive` becomes a
  fuel-indexed structural recursion (the fuel always exceeds the tree depth on
  stores produced by the tree builder, whose parent ids are strictly below
  child ids).

JavaScript string primitives (`trim`, `split`, `includes`, regex alternation
tests) are re-implemented character-by-character below.
-/

/-- Character-list implementations of `toLowerCase`, `toUpperCase`,
`startsWith` and `endsWith` (the byte-position-based `String` versions do not
reduce inside the kernel). -/
def toLowerStr (s : String) : String := (s.data.map Char.toLower).asString

def toUpperStr (s : String) : String := (s.data.map Char.toUpper).asString

def strStarts (s p : String) : Bool := p.data.isPrefixOf s.data

def strEnds (s p : String) : Bool := p.data.reverse.isPrefixOf s.data.reverse

/-- JavaScript `\s` on the ASCII range used by the sources. -/
def isJsWs (c : Char) : Bool :=
  c = ' ' || c = '\t' || c = '\n' || c = '\r' || c = '\x0b' || c = '\x0c'

/-- JavaScript `String.prototype.trim`. -/
def jsTrim (s : String) : String :=
  (((s.data.dropWhile isJsWs).reverse.dropWhile isJsWs).reverse).asString

/-- Auxiliary scanner for `replace(/\s{2,}/g, " ")`: a run of two or more
whitespace characters collapses to one space, a single whitespace character is
kept verbatim.  The `Bool` flag is true while skipping the rest of a collapsed
run. -/
def squashWsAux : Bool → List Char → List Char
  | _, [] => []
  | true, c :: cs =>
    if isJsWs c then squashWsAux true cs else c :: squashWsAux false cs
  | false, c :: cs =>
    if isJsWs c then
      match cs with
      | [] => [c]
      | d :: _ =>
        if isJsWs d then ' ' :: squashWsAux true cs else c :: squashWsAux false cs
    else c :: squashWsAux false cs

/-- JavaScript `str.replace(/\s{2,}/g, " ")`. -/
def squashWs (s : String) : String := (squashWsAux false s.data).asString

/-- Substring test on character lists (JavaScript `String.prototype.includes`). -/
def hasSubList (needle : List Char) : List Char → Bool
  | [] => needle.isEmpty
  | c :: cs => needle.isPrefixOf (c :: cs) || hasSubList needle cs

/-- JavaScript `hay.includes(needle)`. -/
def hasSub (hay needle : String) : Bool := hasSubList needle.data hay.data

/-- Case-insensitive test whether any of the (lowercase) literal alternatives
of a regex such as `/article|body|content|…/i` occurs in `s`. -/
def matchesAnySub (s : String) (pats : List String) : Bool :=
  pats.any (fun p => hasSub (toLowerStr s) p)

/-- Collapse runs of three or more newlines to exactly two
(JavaScript `replace(/\n{3,}/g, "\n\n")`); `nl` counts pending newlines. -/
def collapseNlAux : Nat → List Char → List Char
  | nl, [] => List.replicate (min nl 2) '\n'
  | nl, c :: cs =>
    if c = '\n' then collapseNlAux (nl + 1) cs
    else List.replicate (min nl 2) '\n' ++ c :: collapseNlAux 0 cs

def collapseNewlines (s : String) : String := (collapseNlAux 0 s.data).asString

/-- `'  '.repeat n`. -/
def dupStr (s : String) (n : Nat) : String := String.join (List.replicate n s)

/-- Association-list lookup keyed by `Nat` (JavaScript `Map.get`). -/
def lookupN {α : Type} : List (Nat × α) → Nat → Option α
  | [], _ => none
  | p :: ps, k => if p.1 = k then some p.2 else lookupN ps k

/-- JavaScript `Map.set`: replace in place if the key exists, else append. -/
def setKeyN {α : Type} (l : List (Nat × α)) (k : Nat) (v : α) : List (Nat × α) :=
  if (lookupN l k).isSome then
    l.map (fun p => if p.1 = k then (k, v) else p)
  else l ++ [(k, v)]

/-- JavaScript `Map.delete`. -/
def eraseKeyN {α : Type} (l : List (Nat × α)) (k : Nat) : List (Nat × α) :=
  l.filter (fun p => ¬ p.1 = k)

/-- Lookup in the (lowercased-key) attribute association list. -/
def attrGet (attrs : List (String × String)) (k : String) : Option String :=
  (attrs.find? (fun p => p.1 = k)).map (fun p => p.2)

/-- JavaScript object write `attributes[key] = value`: overwrite if present
(keeping the key's position), else append. -/
def setKeyS (attrs : List (String × String)) (k v : String) : List (String × String) :=
  if (attrGet attrs k).isSome then
    attrs.map (fun p => if p.1 = k then (k, v) else p)
  else attrs ++ [(k, v)]

/-- `element.getAttribute(name)`: HTML attribute names are case-insensitive. -/
def rawAttr (rawAttrs : List (String × String)) (k : String) : Option String :=
  (rawAttrs.find? (fun p => toLowerStr p.1 = k)).map (fun p => p.2)

/-! ## Exact score arithmetic

JavaScript numbers carrying scores are modelled by exact rationals.  `Rat`
normalizes through `Nat.gcd`, which does not reduce inside the kernel, so
scores use an unnormalized `Int` numerator/denominator pair with
cross-multiplied comparisons; every constructor below keeps the denominator
positive.  All score expressions in the source are short exact fractions, and
no verified claim depends on IEEE-754 rounding. -/

structure JNum where
  num : Int
  den : Int
deriving Repr, DecidableEq

def JNum.ofInt (n : Int) : JNum := ⟨n, 1⟩

def JNum.add (a b : JNum) : JNum := ⟨a.num * b.den + b.num * a.den, a.den * b.den⟩

def JNum.sub (a b : JNum) : JNum := ⟨a.num * b.den - b.num * a.den, a.den * b.den⟩

def JNum.mul (a b : JNum) : JNum := ⟨a.num * b.num, a.den * b.den⟩

/-- Division; the embedded code only ever divides by nonzero values. -/
def JNum.div (a b : JNum) : JNum :=
  if b.num < 0 then ⟨-(a.num * b.den), a.den * (-b.num)⟩
  else ⟨a.num * b.den, a.den * b.num⟩

def JNum.lt (a b : JNum) : Bool := a.num * b.den < b.num * a.den

def JNum.le (a b : JNum) : Bool := a.num * b.den ≤ b.num * a.den

/-- `Math.max` on score values. -/
def JNum.maxJ (a b : JNum) : JNum := if JNum.lt a b then b else a

/-! ## Data model (`types.ts`) -/

/-- `ElementInfo` from `types.ts`; the mutable `readability` score cell lives
in a separate score map inside the scorer's state. -/
structure ElementInfo where
  id : Nat
  parentId : Option Nat
  tagName : String
  attributes : List (String × String)
  textChunks : Option (List String)
  finalTextContent : String
  isVisibleBasedOnAttrs : Bool
  role : Option String
  isDataTableLikely : Bool
  isCodeBlock : Bool
deriving Repr, DecidableEq

/-- `Metadata` from `types.ts` (the `jsonLd` slot is declared but never
written anywhere in the sources). -/
structure Metadata where
  title : Option String := none
  byline : Option String := none
  excerpt : Option String := none
  siteName : Option String := none
  publishedTime : Option String := none
  lang : Option String := none
  dir : Option String := none
  jsonLd : Option String := none
deriving Repr, DecidableEq

/-- JavaScript falsiness of an optional string field (`undefined` or `""`). -/
def optFalsy : Option String → Bool
  | none => true
  | some s => s.isEmpty

/-! ## Constants (`constants.ts`) -/

def VOID_ELEMENTS : List String :=
  ["AREA", "BASE", "BR", "COL", "EMBED", "HR", "IMG", "INPUT",
   "LINK", "META", "PARAM", "SOURCE", "TRACK", "WBR"]

def DEFAULT_TAGS_TO_SCORE : List String :=
  ["SECTION", "H2", "H3", "H4", "H5", "H6", "P", "TD", "PRE", "ARTICLE"]

/-- Literal alternatives of `POSITIVE_REGEX`. -/
def POSITIVE_PATTERNS : List String :=
  ["article", "body", "content", "entry", "hentry", "h-entry", "main", "page",
   "pagination", "post", "text", "blog", "story"]

/-- Unanchored literal alternatives of `NEGATIVE_REGEX` (the four `hid`
alternatives carry anchors and are tested separately in `negativeMatch`). -/
def NEGATIVE_PATTERNS : List String :=
  ["-ad-", "hidden", "banner", "combx", "comment", "com-", "contact", "footer",
   "gdpr", "masthead", "media", "meta", "outbrain", "promo", "related",
   "scroll", "share", "shoutbox", "sidebar", "skyscraper", "sponsor",
   "shopping", "tags", "widget"]

/-- `NEGATIVE_REGEX.test(s)`, including the `^hid$`, `  hid$`, ` hid `, `^hid `
anchored alternatives. -/
def negativeMatch (s : String) : Bool :=
  let l := toLowerStr s
  matchesAnySub s NEGATIVE_PATTERNS || l = "hid" || strStarts l "hid " ||
    strEnds l " hid" || hasSub l " hid "

def positiveMatch (s : String) : Bool := matchesAnySub s POSITIVE_PATTERNS

def UNLIKELY_PATTERNS : List String :=
  ["-ad-", "ai2html", "banner", "breadcrumbs", "combx", "comment", "community",
   "cover-wrap", "disqus", "extra", "footer", "gdpr", "header", "legends",
   "menu", "related", "remark", "replies", "rss", "shoutbox", "sidebar",
   "skyscraper", "social", "sponsor", "supplemental", "ad-break", "agegate",
   "pagination", "pager", "popup", "yom-remote"]

def unlikelyMatch (s : String) : Bool := matchesAnySub s UNLIKELY_PATTERNS

def OK_MAYBE_PATTERNS : List String :=
  ["and", "article", "body", "column", "content", "main", "mathjax", "shadow"]

def okMaybeMatch (s : String) : Bool := matchesAnySub s OK_MAYBE_PATTERNS

def UNLIKELY_ROLES : List String :=
  ["menu", "menubar", "complementary", "navigation", "alert", "alertdialog",
   "dialog"]

/-- The nine comma-like characters of `COMMAS_REGEX`
(`, ، ﹐ ︐ ︑ ⹁ ⸴ ⸲ ，`). -/
def isCommaChar (c : Char) : Bool :=
  c = ',' || c = '\u060C' || c = '\uFE50' || c = '\uFE10' ||
    c = '\uFE11' || c = '\u2E41' || c = '\u2E34' || c = '\u2E32' ||
    c = '\uFF0C'

def NB_TOP_CANDIDATES : Nat := 5
def CHAR_THRESHOLD : Nat := 500

/-! ## Store helpers shared by all stages (`utils.ts`) -/

/-- The element store: `Map<number, ElementInfo>` in insertion (= document)
order; ids are assigned monotonically by the tree builder and never reused. -/
def getElementInfo (id : Nat) : (store : List ElementInfo) → Option ElementInfo
  | [] => none
  | e :: es => if e.id = id then some e else getElementInfo id es

/-- Mutation of the record stored under `id` (JavaScript mutates the object
returned by `Map.get` in place). -/
def updateStore (store : List ElementInfo) (id : Nat) (f : ElementInfo → ElementInfo) :
    List ElementInfo :=
  store.map (fun e => if e.id = id then f e else e)

def getParentId (id : Nat) (store : List ElementInfo) : Option Nat :=
  (getElementInfo id store).bind (fun e => e.parentId)

/-- `getAncestorIds` with a positive `maxDepth` (the scorer always calls it
with `maxDepth = 5`; the `maxDepth <= 0` unlimited mode is unused there). -/
def getAncestorIds (store : List ElementInfo) : Nat → Nat → List Nat
  | 0, _ => []
  | d + 1, id =>
    match getParentId id store with
    | none => []
    | some p => p :: getAncestorIds store d p

/-- Ascending insertion into a sorted list (`children.sort((a, b) => a - b)`). -/
def insertAsc (n : Nat) : List Nat → List Nat
  | [] => [n]
  | m :: ms => if n ≤ m then n :: m :: ms else m :: insertAsc n ms

def sortAsc (l : List Nat) : List Nat := l.foldr insertAsc []

def getChildrenIds (parentId : Nat) (store : List ElementInfo) : List Nat :=
  sortAsc ((store.filter (fun e => e.parentId = some parentId)).map (fun e => e.id))

/-- Fuel-indexed preorder descendant collection; on stores built by the tree
builder every parent id is strictly below its child's id, so any fuel of at
least `store.length` reproduces the (unbounded) JavaScript recursion. -/
def getDescendantsAux (store : List ElementInfo) : Nat → Nat → List Nat
  | 0, _ => []
  | f + 1, id =>
    (getChildrenIds id store).flatMap (fun c => c :: getDescendantsAux store f c)

def getDescendantIds (id : Nat) (store : List ElementInfo) : List Nat :=
  getDescendantsAux store (store.length + 1) id

def getInnerText (id : Nat) (store : List ElementInfo) (normalizeSpaces : Bool) : String :=
  let text := match getElementInfo id store with
    | some e => e.finalTextContent
    | none => ""
  if normalizeSpaces then jsTrim (squashWs text) else jsTrim text

/-- Fuel-indexed version of `getTotalVisibleInnerText` (always called with
`normalizeSpaces = true` along the paths the claims exercise). -/
def getTotalVisibleInnerTextAux (store : List ElementInfo) : Nat → Nat → String
  | 0, _ => ""
  | f + 1, id =>
    let own := match getElementInfo id store with
      | some i => if i.isVisibleBasedOnAttrs then getInnerText id store true else ""
      | none => ""
    let tot := (getChildrenIds id store).foldl
      (fun acc c => acc ++ " " ++ getTotalVisibleInnerTextAux store f c) own
    jsTrim (squashWs tot)

def getTotalVisibleInnerText (id : Nat) (store : List ElementInfo) : String :=
  getTotalVisibleInnerTextAux store (store.length + 1) id

def getClassWeight (id : Nat) (store : List ElementInfo) : JNum :=
  match getElementInfo id store with
  | none => JNum.ofInt 0
  | some info =>
    let classAndId :=
      (attrGet info.attributes "class").getD "" ++ " " ++ (attrGet info.attributes "id").getD ""
    JNum.add (if negativeMatch classAndId then JNum.ofInt (-25) else JNum.ofInt 0)
      (if positiveMatch classAndId then JNum.ofInt 25 else JNum.ofInt 0)

/-- `getLinkDensity` (same-page fragment anchors weighted 0.3 = 3/10). -/
def getLinkDensity (id : Nat) (store : List ElementInfo) : JNum :=
  let textLength := (getTotalVisibleInnerText id store).length
  if textLength = 0 then JNum.ofInt 0
  else
    let descendantIds := id :: getDescendantIds id store
    let linkLength := descendantIds.foldl (fun acc d =>
      match getElementInfo d store with
      | some di =>
        if di.isVisibleBasedOnAttrs && di.tagName = "A" then
          let coefficient : JNum :=
            match attrGet di.attributes "href" with
            | some h => if strStarts h "#" then ⟨3, 10⟩ else JNum.ofInt 1
            | none => JNum.ofInt 1
          JNum.add acc
            (JNum.mul (JNum.ofInt ((getTotalVisibleInnerText d store).length : Int)) coefficient)
        else acc
      | none => acc) (JNum.ofInt 0)
    JNum.div linkLength (JNum.ofInt (textLength : Int))

def isUnlikelyCandidate (id : Nat) (store : List ElementInfo) : Bool :=
  match getElementInfo id store with
  | none => true
  | some info =>
    let matchString :=
      (attrGet info.attributes "class").getD "" ++ " " ++ (attrGet info.attributes "id").getD ""
    if UNLIKELY_ROLES.contains (info.role.getD "") then true
    else if unlikelyMatch matchString && !okMaybeMatch matchString &&
        info.tagName ≠ "BODY" && info.tagName ≠ "ARTICLE" then true
    else false

/-! ## Tree builder (`phase1-handler.ts`) -/

/-- The parse events consumed by `Phase1Handler`: start tags, text chunks, the
firing of a registered `onEndTag` callback, and document end. -/
inductive HtmlEvent where
  | start (tag : String) (attrs : List (String × String))
  | text (chunk : String)
  | endTag
  | docEnd
deriving Repr, DecidableEq

/-- The handler's mutable fields plus the externally managed store, metadata
record and id counter it writes through. -/
structure Phase1State where
  elementStore : List ElementInfo
  metadata : Metadata
  elementCounter : Nat
  elementStack : List Nat
  elementCount : Nat
  lastTextChunkMap : List (Nat × String)
deriving Repr, DecidableEq

def initialPhase1State : Phase1State :=
  { elementStore := [], metadata := {}, elementCounter := 0,
    elementStack := [], elementCount := 0, lastTextChunkMap := [] }

/-- `unescapeHtmlEntities`: returns `undefined` on a falsy argument; the
replacement chain in the distributed source maps each entity to itself, so the
content of a non-empty string is unchanged. -/
def unescapeHtmlEntities : Option String → Option String
  | none => none
  | some s => if s = "" then none else some s

/-- Result object of `extractMetadataFromElement` (only the keys assigned in
the source; the `/* ... */` elided alternatives of its conditions are not part
of the distributed code and are omitted). -/
structure ExtractedMeta where
  title : Option String := none
  byline : Option String := none
  excerpt : Option String := none
  siteName : Option String := none
  publishedTime : Option String := none

def extractMetadataFromElement (rawAttrs : List (String × String)) : ExtractedMeta :=
  let nm := (rawAttr rawAttrs "name").map toLowerStr
  let property := (rawAttr rawAttrs "property").map toLowerStr
  match rawAttr rawAttrs "content" with
  | none => {}
  | some content =>
    if content = "" then {}
    else
      { title := if property = some "og:title" || nm = some "twitter:title" then some content else none,
        byline := if property = some "og:article:author" || nm = some "author" then some content else none,
        excerpt := if property = some "og:description" || nm = some "description" then some content else none,
        siteName := if property = some "og:site_name" then some content else none,
        publishedTime := if property = some "article:published_time" || nm = some "parsely-pub-date" then some content else none }

/-- `if (!metadataStore[key]) metadataStore[key] = unescapeHtmlEntities(v)` -/
def mergeMetaField (cur newVal : Option String) : Option String :=
  match newVal with
  | none => cur
  | some v => if optFalsy cur then unescapeHtmlEntities (some v) else cur

def mergeMeta (m : Metadata) (x : ExtractedMeta) : Metadata :=
  { m with
    title := mergeMetaField m.title x.title,
    byline := mergeMetaField m.byline x.byline,
    excerpt := mergeMetaField m.excerpt x.excerpt,
    siteName := mergeMetaField m.siteName x.siteName,
    publishedTime := mergeMetaField m.publishedTime x.publishedTime }

/-- The skip condition of `Phase1Handler.element` for script, style, noscript,
iframe and stylesheet links (these tags are never recorded in the store). -/
def isSkippedStartTag (tagName : String) (rawAttrs : List (String × String)) : Bool :=
  tagName = "SCRIPT" || tagName = "STYLE" || tagName = "NOSCRIPT" ||
    tagName = "IFRAME" ||
    (tagName = "LINK" && rawAttr rawAttrs "rel" = some "stylesheet")

/-- Record update performed when a text chunk is appended to an element. -/
def pushChunkUpd (chunk : String) (e : ElementInfo) : ElementInfo :=
  { e with textChunks := some (e.textChunks.getD [] ++ [chunk]) }

/-- `Phase1Handler.element` (start-tag handler).  The lazy-image promotion for
`IMG`/`PICTURE`/`FIGURE` rewrites the host element's attributes only — the
stored copy was taken before the rewrite — so it leaves this state unchanged. -/
def phase1Element (maxElemsToParse : Nat) (s : Phase1State)
    (tag : String) (rawAttrs : List (String × String)) : Phase1State :=
  if 0 < maxElemsToParse && maxElemsToParse ≤ s.elementCount then s
  else
    let s := { s with elementCount := s.elementCount + 1 }
    let tagName := toUpperStr tag
    if isSkippedStartTag tagName rawAttrs then s
    else
      let elementId := s.elementCounter + 1
      let parentId := s.elementStack.head?
      let attributes :=
        rawAttrs.foldl (fun m p => setKeyS m (toLowerStr p.1) p.2) []
      let styleHas := fun (needle : String) =>
        match attrGet attributes "style" with
        | some st => hasSub st needle
        | none => false
      let isVisibleBasedOnAttrs :=
        rawAttr rawAttrs "hidden" = none &&
        !styleHas "display: none" &&
        !styleHas "visibility: hidden" &&
        rawAttr rawAttrs "aria-hidden" ≠ some "true"
      let role := rawAttr rawAttrs "role"
      let newInfo : ElementInfo :=
        { id := elementId, parentId := parentId, tagName := tagName,
          attributes := attributes, textChunks := some [], finalTextContent := "",
          isVisibleBasedOnAttrs := isVisibleBasedOnAttrs, role := role,
          isDataTableLikely :=
            tagName = "TABLE" && attrGet attributes "role" ≠ some "presentation" &&
              attrGet attributes "datatable" ≠ some "0",
          isCodeBlock := tagName = "PRE" }
      let s := { s with
        elementStore := s.elementStore ++ [newInfo],
        elementCounter := elementId,
        lastTextChunkMap := eraseKeyN s.lastTextChunkMap elementId }
      let s :=
        if tagName = "META" then
          { s with metadata := mergeMeta s.metadata (extractMetadataFromElement rawAttrs) }
        else if tagName = "HTML" then
          { s with metadata :=
            { s.metadata with lang := rawAttr rawAttrs "lang", dir := rawAttr rawAttrs "dir" } }
        else s
      if VOID_ELEMENTS.contains tagName then
        { s with
          lastTextChunkMap := eraseKeyN s.lastTextChunkMap elementId,
          elementStore := updateStore s.elementStore elementId
            (fun e => { e with textChunks := none }) }
      else { s with elementStack := elementId :: s.elementStack }

/-- `Phase1Handler.text` (text-chunk handler with the adjacent-duplicate
suppression keyed by `lastTextChunkMap`). -/
def phase1Text (s : Phase1State) (chunk : String) : Phase1State :=
  match s.elementStack.head? with
  | none => s
  | some currentElementId =>
    if (jsTrim chunk).length = 0 then s
    else
      match getElementInfo currentElementId s.elementStore with
      | none => s
      | some currentInfo =>
        if VOID_ELEMENTS.contains currentInfo.tagName then s
        else if lookupN s.lastTextChunkMap currentElementId = some chunk then s
        else
          { s with
            elementStore := updateStore s.elementStore currentElementId (pushChunkUpd chunk),
            lastTextChunkMap := setKeyN s.lastTextChunkMap currentElementId chunk }

/-- The body of the `onEndTag` callback registered for every tracked non-void
element: pop the stack, drop the suppression entry, merge the buffered chunks
and capture a `<title>` into the metadata if still unset. -/
def phase1OnEndTag (s : Phase1State) : Phase1State :=
  match s.elementStack with
  | [] => s
  | finishedElementId :: rest =>
    let s := { s with
      elementStack := rest,
      lastTextChunkMap := eraseKeyN s.lastTextChunkMap finishedElementId }
    match getElementInfo finishedElementId s.elementStore with
    | none => s
    | some info =>
      let finalText := String.join (info.textChunks.getD [])
      let s := { s with
        elementStore := updateStore s.elementStore finishedElementId
          (fun e => { e with finalTextContent := finalText, textChunks := none }) }
      if info.tagName = "TITLE" && optFalsy s.metadata.title then
        { s with metadata :=
          { s.metadata with title := unescapeHtmlEntities (some (jsTrim finalText)) } }
      else s

/-- `Phase1Handler.end` (document end): only clears the suppression map; any
still-open elements are left as they are (their buffers are not merged). -/
def phase1DocEnd (s : Phase1State) : Phase1State :=
  { s with lastTextChunkMap := [] }

def phase1Step (maxElemsToParse : Nat) (s : Phase1State) : HtmlEvent → Phase1State
  | .start tag attrs => phase1Element maxElemsToParse s tag attrs
  | .text chunk => phase1Text s chunk
  | .endTag => phase1OnEndTag s
  | .docEnd => phase1DocEnd s

def foldPhase1From (maxElemsToParse : Nat) (s : Phase1State)
    (events : List HtmlEvent) : Phase1State :=
  events.foldl (phase1Step maxElemsToParse) s

/-- `runPhase1`: the tree builder consumes the whole stream from a fresh
state. -/
def runPhase1 (maxElemsToParse : Nat) (events : List HtmlEvent) : Phase1State :=
  foldPhase1From maxElemsToParse initialPhase1State events

/-! ## Scorer (`phase2-scorer.ts`) -/

/-- `innerText.split(COMMAS_REGEX)` segment structure: head segment plus the
list of segments following each comma-like character. -/
def splitCommaSegs : List Char → List Char × List (List Char)
  | [] => ([], [])
  | c :: cs =>
    let p := splitCommaSegs cs
    if isCommaChar c then ([], p.1 :: p.2) else (c :: p.1, p.2)

/-- `innerText.split(COMMAS_REGEX).length`. -/
def numSplitParts (s : String) : Nat := (splitCommaSegs s.data).2.length + 1

/-- Number of comma-like characters in the text. -/
def commaCount (s : String) : Nat := s.data.countP isCommaChar

/-- The base content score of line 75 of the scorer:
`1 + innerText.split(COMMAS_REGEX).length + Math.min(Math.floor(len / 100), 3)`. -/
def baseContentScore (s : String) : JNum :=
  JNum.ofInt (1 + (numSplitParts s : Int) + ((min (s.length / 100) 3 : Nat) : Int))

/-- The spec's own wording of the base score
(`1 + commaCount + min(floor(len / 100), 3)`), written down for comparison
with `baseContentScore`. -/
def specBaseContentScore (s : String) : JNum :=
  JNum.ofInt (1 + (commaCount s : Int) + ((min (s.length / 100) 3 : Nat) : Int))

/-- Tag bias of `initializeNodeScore` (the scorer's local copy elides the full
case lists with `/*...*/`; `utils.ts` carries the complete enumeration). -/
def initTagBias (tagName : String) : JNum :=
  if tagName = "ARTICLE" || tagName = "DIV" then JNum.ofInt 5
  else if tagName = "PRE" || tagName = "TD" || tagName = "BLOCKQUOTE" then JNum.ofInt 3
  else if tagName = "ADDRESS" || tagName = "OL" || tagName = "UL" || tagName = "DL" ||
      tagName = "DD" || tagName = "DT" || tagName = "LI" || tagName = "FORM" then JNum.ofInt (-3)
  else if tagName = "H1" || tagName = "H2" || tagName = "H3" || tagName = "H4" ||
      tagName = "H5" || tagName = "H6" || tagName = "TH" then JNum.ofInt (-5)
  else JNum.ofInt 0

/-- The score `initializeNodeScore` seeds a node with. -/
def initializeNodeScoreValue (info : ElementInfo) (store : List ElementInfo) : JNum :=
  JNum.add (initTagBias info.tagName) (getClassWeight info.id store)

/-- `level === 0 ? 1 : (level === 1 ? 2 : level * 3)`. -/
def scoreDivider (level : Nat) : JNum :=
  if level = 0 then JNum.ofInt 1
  else if level = 1 then JNum.ofInt 2
  else JNum.ofInt ((level : Int) * 3)

/-- Scorer working state: the per-node `readability.contentScore` cells and
the candidate map keys in insertion order. -/
structure ScoreAcc where
  readMap : List (Nat × JNum)
  candList : List Nat
deriving Repr

/-- Step 1: `elementsToScoreIds`. -/
def elementsToScoreIds (store : List ElementInfo) : List Nat :=
  (store.filter (fun e =>
    e.isVisibleBasedOnAttrs && !isUnlikelyCandidate e.id store &&
      DEFAULT_TAGS_TO_SCORE.contains e.tagName)).map (fun e => e.id)

/-- One ancestor visit of step 2 (`level` is the `forEach` index). -/
def propagateToAncestor (store : List ElementInfo) (contentScore : JNum)
    (acc : ScoreAcc) (p : Nat × Nat) : ScoreAcc :=
  let level := p.1
  let ancestorId := p.2
  match getElementInfo ancestorId store with
  | none => acc
  | some ancestorInfo =>
    if !ancestorInfo.isVisibleBasedOnAttrs || isUnlikelyCandidate ancestorId store then acc
    else
      let acc :=
        if (lookupN acc.readMap ancestorId).isNone then
          let initScore := initializeNodeScoreValue ancestorInfo store
          { readMap := setKeyN acc.readMap ancestorId initScore,
            candList :=
              if JNum.le (JNum.ofInt 0) initScore then acc.candList ++ [ancestorId]
              else acc.candList }
        else acc
      match lookupN acc.readMap ancestorId with
      | some sc =>
        let added := JNum.add sc (JNum.div contentScore (scoreDivider level))
        { acc with readMap := setKeyN acc.readMap ancestorId added }
      | none => acc

/-- Step 2: score eligible elements and propagate to up to 5 ancestor levels. -/
def propagateScores (store : List ElementInfo) : ScoreAcc :=
  (elementsToScoreIds store).foldl (fun acc elementId =>
    match getElementInfo elementId store with
    | none => acc
    | some elementInfo =>
      if !elementInfo.isVisibleBasedOnAttrs then acc
      else
        let innerText := getInnerText elementId store true
        if innerText.length < 25 then acc
        else
          let ancestorIds := getAncestorIds store 5 elementId
          if ancestorIds = [] then acc
          else
            let contentScore := baseContentScore innerText
            ancestorIds.enum.foldl (propagateToAncestor store contentScore) acc)
    { readMap := [], candList := [] }

/-- Step 3: link-density adjustment over the candidates, in candidate-map
insertion order; returns the `candidateScores` list and the updated score
cells. -/
def adjustScores (store : List ElementInfo) (acc : ScoreAcc) :
    List (Nat × JNum) × List (Nat × JNum) :=
  acc.candList.foldl (fun st id =>
    match lookupN st.2 id with
    | none => st
    | some sc =>
      let finalScore := JNum.mul sc (JNum.sub (JNum.ofInt 1) (getLinkDensity id store))
      (st.1 ++ [(id, finalScore)], setKeyN st.2 id finalScore))
    ([], acc.readMap)

/-- `candidateScores` as produced by steps 1-3 of the scorer. -/
def candidateScoresOf (store : List ElementInfo) : List (Nat × JNum) :=
  (adjustScores store (propagateScores store)).1

/-- The readability score cells after the step-3 adjustment. -/
def adjustedReadMap (store : List ElementInfo) : List (Nat × JNum) :=
  (adjustScores store (propagateScores store)).2

/-- Stable descending insertion (`sort((a, b) => b[1] - a[1])`, stable in the
JavaScript runtimes the source targets). -/
def insertDescQ (x : Nat × JNum) : List (Nat × JNum) → List (Nat × JNum)
  | [] => [x]
  | y :: ys => if JNum.lt y.2 x.2 then x :: y :: ys else y :: insertDescQ x ys

def sortDescQ : List (Nat × JNum) → List (Nat × JNum)
  | [] => []
  | x :: xs => insertDescQ x (sortDescQ xs)

/-- Step 5a, score-based parent climb (`while (parentId) { ... }`); on the
stores built by phase 1 the parent chain is finite, and the fuel passed by the
caller exceeds its length. -/
def scoreClimb (store : List ElementInfo) (readMap : List (Nat × JNum)) :
    Nat → Nat → JNum → Nat × JNum
  | 0, id, sc => (id, sc)
  | fuel + 1, id, sc =>
    match getParentId id store with
    | none => (id, sc)
    | some p =>
      if p = 0 then (id, sc)
      else
        let parentScore := (lookupN readMap p).getD (JNum.ofInt (-1))
        if JNum.lt parentScore (JNum.div sc (JNum.ofInt 3)) then (id, sc)
        else if JNum.lt sc parentScore then scoreClimb store readMap fuel p parentScore
        else (id, sc)

/-- Step 5b, sole-child climb: the loop guard tests the *current* candidate's
tag against `BODY` (`topCandidateInfo.tagName !== 'BODY'`), not the parent's. -/
def soleChildClimb (store : List ElementInfo) : Nat → Nat → Nat
  | 0, id => id
  | fuel + 1, id =>
    match getParentId id store, getElementInfo id store with
    | some p, some info =>
      if p = 0 then id
      else if info.tagName = "BODY" then id
      else if (getChildrenIds p store).length = 1 then soleChildClimb store fuel p
      else id
    | _, _ => id

def addUnique (l : List Nat) (n : Nat) : List Nat :=
  if l.contains n then l else l ++ [n]

def addManyUnique (l : List Nat) (ns : List Nat) : List Nat := ns.foldl addUnique l

/-- `topCandidateId` plus its whole subtree (the parentless-candidate branch of
step 6). -/
def selfSubtreeKeep (store : List ElementInfo) (topCandidateId : Nat) : List Nat :=
  addManyUnique (addUnique [] topCandidateId) (getDescendantIds topCandidateId store)

/-- Step 6: sibling merge around the final candidate. `contentBonus` is the
constant 0 of the source (`const contentBonus = 0; /* ... */`) and the
paragraph-specific extra test is an empty stub there. -/
def siblingMerge (store : List ElementInfo) (readMap : List (Nat × JNum))
    (topCandidateId : Nat) (topCandidateScore : JNum) : List Nat :=
  match getParentId topCandidateId store with
  | some p =>
    if p ≠ 0 && topCandidateId ≠ 0 then
      let siblings := getChildrenIds p store
      let siblingScoreThreshold :=
        JNum.maxJ (JNum.ofInt 10) (JNum.mul topCandidateScore ⟨2, 10⟩)
      siblings.foldl (fun keep siblingId =>
        match getElementInfo siblingId store with
        | none => keep
        | some siblingInfo =>
          if !siblingInfo.isVisibleBasedOnAttrs then keep
          else
            let contentBonus := JNum.ofInt 0
            let append :=
              if siblingId = topCandidateId then true
              else if JNum.le siblingScoreThreshold
                  (JNum.add ((lookupN readMap siblingId).getD (JNum.ofInt 0)) contentBonus)
                then true
              else false
            if append then
              addManyUnique (addUnique keep siblingId) (getDescendantIds siblingId store)
            else keep) []
    else if topCandidateId ≠ 0 then selfSubtreeKeep store topCandidateId
    else []
  | none =>
    if topCandidateId ≠ 0 then selfSubtreeKeep store topCandidateId else []

/-- Step 7's character count: visible elements of the retained list contribute
their own normalized text length. -/
def gateTextLength (store : List ElementInfo) (elementsToKeepIds : List Nat) : Nat :=
  elementsToKeepIds.foldl (fun n id =>
    match getElementInfo id store with
    | some info =>
      if info.isVisibleBasedOnAttrs then n + (getInnerText id store true).length else n
    | none => n) 0

structure ScoringOptions where
  debug : Bool := false
  nbTopCandidates : Nat := NB_TOP_CANDIDATES
  charThreshold : Nat := CHAR_THRESHOLD
  allowedVideoPattern : Option String := none
  linkDensityModifier : JNum := JNum.ofInt 0
deriving Repr

/-- Steps 1-6 of the scorer: candidate selection before the character-count
gate.  Returns `none` when no candidate has a positive adjusted score. -/
def calcSelect (store : List ElementInfo) : Option (Nat × List Nat) :=
  let pr := adjustScores store (propagateScores store)
  let sortedCandidates := sortDescQ (pr.1.filter (fun q => JNum.lt (JNum.ofInt 0) q.2))
  match sortedCandidates with
  | [] => none
  | top :: _ =>
    let climbed := scoreClimb store pr.2 (store.length + 1) top.1 top.2
    let topCandidateId := soleChildClimb store (store.length + 1) climbed.1
    let topCandidateScore := climbed.2
    some (topCandidateId, siblingMerge store pr.2 topCandidateId topCandidateScore)

/-- `calculateScoresAndFindBestCandidate` — steps 1-6 followed by the
character-threshold gate of step 7. -/
def calculateScoresAndFindBestCandidate (store : List ElementInfo)
    (options : ScoringOptions) : Option Nat × List Nat :=
  match calcSelect store with
  | none => (none, [])
  | some p =>
    if gateTextLength store p.2 < options.charThreshold then (none, [])
    else (some p.1, p.2)

/-! ## Serializer (`markdown-converter.ts`) -/

/-- The Markdown-special characters of the escape class
`[\\`*_{}[\]()#+.!-]`. -/
def isMdSpecial (c : Char) : Bool :=
  c = '\\' || c = '`' || c = '*' || c = '_' || c = '\x7b' || c = '\x7d' ||
    c = '[' || c = ']' || c = '(' || c = ')' || c = '#' || c = '+' ||
    c = '.' || c = '!' || c = '-'

def escapeMdChars : List Char → List Char
  | [] => []
  | c :: cs =>
    if isMdSpecial c then '\\' :: c :: escapeMdChars cs else c :: escapeMdChars cs

/-- `rawDirectText.replace(/([\\`*_{}[\]()#+.!-])/g, '\\$1')`. -/
def escapeMd (s : String) : String := (escapeMdChars s.data).asString

/-- `escapeHtml` from `utils.ts`: the replacement chain in the distributed
source maps each character to itself, so a non-null input is unchanged. -/
def escapeHtml (s : String) : String := s

/-- JavaScript `str.split('\n')` segments: first line plus the lines following
each newline. -/
def splitNlPair : List Char → List Char × List (List Char)
  | [] => ([], [])
  | c :: cs =>
    let p := splitNlPair cs
    if c = '\n' then ([], p.1 :: p.2) else (c :: p.1, p.2)

def splitLines (s : String) : List String :=
  let p := splitNlPair s.data
  (p.1 :: p.2).map List.asString

/-- First match of `/language-(\S+)/` in a class string: the captured token. -/
def matchLanguageClass : List Char → Option String
  | [] => none
  | c :: cs =>
    if ("language-".data).isPrefixOf (c :: cs) then
      let tok := ((c :: cs).drop 9).takeWhile (fun d => !isJsWs d)
      if tok.isEmpty then matchLanguageClass cs else some tok.asString
    else matchLanguageClass cs

/-- `'  '.repeat(listLevel > 0 ? listLevel - 1 : 0)`. -/
def listIndentOf (listLevel : Nat) : String :=
  dupStr "  " (if 0 < listLevel then listLevel - 1 else 0)

/-- The element's own escaped direct text (`elementText` in the converter). -/
def elementTextOf (store : List ElementInfo) (id : Nat) : String :=
  let rawDirectText := getInnerText id store false
  if rawDirectText = "" then "" else escapeMd rawDirectText

/-- Host-environment `new URL(href, base).href`.  The WHATWG URL parser is
external to this repository; it is modelled by an explicit total function of
the two strings, which no verified claim inspects. -/
def urlResolve (base href : String) : String := base ++ href

/-- `children.map(cid => store.get(cid)).find(cinfo => cinfo?.tagName === 'CODE')`. -/
def findCodeChild (store : List ElementInfo) (children : List Nat) : Option ElementInfo :=
  ((children.map (fun cid => getElementInfo cid store)).find?
    (fun o => (o.map (fun ci => ci.tagName)) = some "CODE")).bind (fun o => o)

/-- `MarkdownConverter.convertNodeRecursive`, indexed by recursion fuel (the
callers pass `store.length + 1`, which exceeds any parent-child chain in a
store produced by the tree builder). -/
def convertNodeRecursive (store : List ElementInfo) (keep : List Nat) (baseURI : String) :
    Nat → Nat → Nat → Bool → Nat → String
  | 0, _, _, _, _ => ""
  | fuel + 1, id, listLevel, isListOrdered, listItemNumber =>
    match getElementInfo id store with
    | none => ""
    | some info =>
      if !keep.contains id then ""
      else
        let tagName := info.tagName
        let children := getChildrenIds id store
        let childrenMarkdown := children.enum.foldl (fun acc p =>
          acc ++ convertNodeRecursive store keep baseURI fuel p.2
            (if tagName = "UL" || tagName = "OL" || tagName = "LI" then listLevel + 1 else 0)
            (tagName = "OL")
            (if tagName = "OL" then p.1 + 1 else 1)) ""
        let elementText := elementTextOf store id
        let listIndent := listIndentOf listLevel
        if tagName = "P" then
          let pContent := jsTrim (elementText ++ childrenMarkdown)
          if pContent = "" then "" else listIndent ++ pContent ++ "\n\n"
        else if tagName = "H1" then listIndent ++ "# " ++ elementText ++ childrenMarkdown ++ "\n\n"
        else if tagName = "H2" then listIndent ++ "## " ++ elementText ++ childrenMarkdown ++ "\n\n"
        else if tagName = "H3" then listIndent ++ "### " ++ elementText ++ childrenMarkdown ++ "\n\n"
        else if tagName = "H4" then listIndent ++ "#### " ++ elementText ++ childrenMarkdown ++ "\n\n"
        else if tagName = "H5" then listIndent ++ "##### " ++ elementText ++ childrenMarkdown ++ "\n\n"
        else if tagName = "H6" then listIndent ++ "###### " ++ elementText ++ childrenMarkdown ++ "\n\n"
        else if tagName = "UL" || tagName = "OL" then
          if strStarts childrenMarkdown "\n" then childrenMarkdown else "\n" ++ childrenMarkdown
        else if tagName = "LI" then
          let marker := if isListOrdered then toString listItemNumber ++ "." else "*"
          let liContent := jsTrim (elementText ++ childrenMarkdown)
          let itemIndent := listIndent ++ "  "
          let liLines := (splitLines liContent).enum.map (fun p =>
            if 0 < p.1 then itemIndent ++ jsTrim p.2 else jsTrim p.2)
          listIndent ++ marker ++ " " ++ String.intercalate "\n" liLines ++ "\n"
        else if tagName = "A" then
          let href0 := (attrGet info.attributes "href").getD ""
          let href :=
            if href0 ≠ "" && !strStarts href0 "http" && !strStarts href0 "#" &&
                !strStarts href0 "mailto:" && !strStarts href0 "tel:" then
              urlResolve baseURI href0
            else href0
          let linkText :=
            if jsTrim childrenMarkdown ≠ "" then jsTrim childrenMarkdown else elementText
          "[" ++ escapeMd linkText ++ "](" ++ href ++ ")"
        else if tagName = "IMG" then
          let src0 := (attrGet info.attributes "src").getD ""
          let src :=
            if src0 ≠ "" && !strStarts src0 "http" && !strStarts src0 "data:" then
              urlResolve baseURI src0
            else src0
          let alt := (attrGet info.attributes "alt").getD ""
          let title := match attrGet info.attributes "title" with
            | some t => if t = "" then "" else " \"" ++ escapeHtml t ++ "\""
            | none => ""
          listIndent ++ "![" ++ escapeMd alt ++ "](" ++ src ++ title ++ ")\n\n"
        else if tagName = "PRE" then
          let codeChild := findCodeChild store children
          let codeContent := match codeChild with
            | some ci => getInnerText ci.id store false
            | none => getInnerText id store false
          let lang := match codeChild with
            | some ci => (matchLanguageClass ((attrGet ci.attributes "class").getD "").data).getD ""
            | none => ""
          listIndent ++ "```" ++ lang ++ "\n" ++ jsTrim codeContent ++ "\n" ++
            listIndent ++ "```" ++ "\n\n"
        else if tagName = "CODE" then
          if !info.isCodeBlock then "`" ++ jsTrim (elementText ++ childrenMarkdown) ++ "`"
          else ""
        else if tagName = "STRONG" || tagName = "B" then
          "**" ++ elementText ++ childrenMarkdown ++ "**"
        else if tagName = "EM" || tagName = "I" then
          "*" ++ elementText ++ childrenMarkdown ++ "*"
        else if tagName = "BLOCKQUOTE" then
          let bqContent := jsTrim (elementText ++ childrenMarkdown)
          String.intercalate "\n"
            ((splitLines bqContent).map (fun l => listIndent ++ "> " ++ jsTrim l)) ++ "\n\n"
        else if tagName = "HR" then listIndent ++ "---\n\n"
        else if tagName = "BR" then "  \n"
        else if tagName = "DIV" || tagName = "SPAN" || tagName = "SECTION" ||
            tagName = "ARTICLE" || tagName = "FIGURE" || tagName = "FIGCAPTION" ||
            tagName = "HEADER" || tagName = "FOOTER" || tagName = "ASIDE" ||
            tagName = "NAV" then
          elementText ++ childrenMarkdown
        else if !VOID_ELEMENTS.contains tagName then elementText ++ childrenMarkdown
        else ""

/-- The children fold of `convertNodeRecursive` as a named function, for use
in theorem statements; definitionally equal to the inline fold above. -/
def convertChildrenOf (store : List ElementInfo) (keep : List Nat) (baseURI : String)
    (fuel : Nat) (tagName : String) (listLevel : Nat) (children : List Nat) : String :=
  children.enum.foldl (fun acc p =>
    acc ++ convertNodeRecursive store keep baseURI fuel p.2
      (if tagName = "UL" || tagName = "OL" || tagName = "LI" then listLevel + 1 else 0)
      (tagName = "OL")
      (if tagName = "OL" then p.1 + 1 else 1)) ""

/-- `MarkdownConverter.convert`. -/
def convert (store : List ElementInfo) (keep : List Nat) (baseURI : String)
    (rootElementId : Option Nat) : String :=
  match rootElementId with
  | none => ""
  | some rid =>
    let out := (getChildrenIds rid store).foldl
      (fun acc c => acc ++ convertNodeRecursive store keep baseURI (store.length + 1) c 0 false 1)
      ""
    jsTrim (collapseNewlines out)

/-! ## Entry point (`html-rewriter-readability.ts`) -/

structure ReadabilityOptions where
  debug : Bool := false
  maxElemsToParse : Nat := 0
  nbTopCandidates : Nat := 5
  charThreshold : Nat := 500
  classesToPreserve : List String := []
  keepClasses : Bool := false
  allowedVideoPattern : Option String := none
  linkDensityModifier : JNum := JNum.ofInt 0
deriving Repr

def toScoringOptions (o : ReadabilityOptions) : ScoringOptions :=
  { debug := o.debug, nbTopCandidates := o.nbTopCandidates,
    charThreshold := o.charThreshold,
    allowedVideoPattern := o.allowedVideoPattern,
    linkDensityModifier := o.linkDensityModifier }

/-- The per-instance mutable fields of `HtmlRewriterReadability`. -/
structure RwState where
  elementStore : List ElementInfo
  metadata : Metadata
  elementCounter : Nat
  elementsToKeepIdsSet : List Nat
deriving Repr

/-- `resetState`: every per-call field is cleared. -/
def resetState (_s : RwState) : RwState :=
  { elementStore := [], metadata := {}, elementCounter := 0,
    elementsToKeepIdsSet := [] }

def initialRwState : RwState :=
  { elementStore := [], metadata := {}, elementCounter := 0,
    elementsToKeepIdsSet := [] }

/-- `HtmlRewriterReadability.process` invoked on an instance whose mutable
fields hold `s`: phase 1 from a reset state, scoring, the null-result check
and Markdown conversion rooted at the candidate's parent.  Returns the result
together with the instance state after the call. -/
def processFrom (s : RwState) (baseURI : String) (o : ReadabilityOptions)
    (events : List HtmlEvent) : Option (String × Metadata) × RwState :=
  let s0 := resetState s
  let p1 := foldPhase1From o.maxElemsToParse
    { elementStore := s0.elementStore, metadata := s0.metadata,
      elementCounter := s0.elementCounter, elementStack := [],
      elementCount := 0, lastTextChunkMap := [] } events
  let r := calculateScoresAndFindBestCandidate p1.elementStore (toScoringOptions o)
  match r.1 with
  | none =>
    (none, { elementStore := p1.elementStore, metadata := p1.metadata,
             elementCounter := p1.elementCounter,
             elementsToKeepIdsSet := s0.elementsToKeepIdsSet })
  | some topCandidateId =>
    if topCandidateId = 0 || r.2.isEmpty then
      (none, { elementStore := p1.elementStore, metadata := p1.metadata,
               elementCounter := p1.elementCounter,
               elementsToKeepIdsSet := s0.elementsToKeepIdsSet })
    else
      let rootBuildId := match getParentId topCandidateId p1.elementStore with
        | some p => p
        | none => topCandidateId
      let markdown := convert p1.elementStore r.2 baseURI (some rootBuildId)
      (some (markdown, p1.metadata),
       { elementStore := p1.elementStore, metadata := p1.metadata,
         elementCounter := p1.elementCounter, elementsToKeepIdsSet := r.2 })

/-- One extraction from a fresh instance. -/
def processEvents (baseURI : String) (o : ReadabilityOptions)
    (events : List HtmlEvent) : Option (String × Metadata) :=
  (processFrom initialRwState baseURI o events).1

/-! ## Concrete stores and states used by witnesses and counterexamples -/

/-- Minimal element record for concrete stores (all attributes empty, visible,
no role, finalized text). -/
def mkEl (id : Nat) (pid : Option Nat) (tag : String) (txt : String) : ElementInfo :=
  { id := id, parentId := pid, tagName := tag, attributes := [],
    textChunks := none, finalTextContent := txt, isVisibleBasedOnAttrs := true,
    role := none, isDataTableLikely := false, isCodeBlock := false }

/-- body > div > p with 40 characters of paragraph text. -/
def storeW : List ElementInfo :=
  [mkEl 1 none "BODY" "", mkEl 2 (some 1) "DIV" "",
   mkEl 3 (some 2) "P" "aaaaaaaaaabbbbbbbbbbccccccccccdddddddddd"]

/-- 25 characters, no commas. -/
def c3text : String := "aaaaaaaaaaaaaaaaaaaaaaaaa"

/-- body > div > p with exactly 25 characters of comma-free text. -/
def storeC3 : List ElementInfo :=
  [mkEl 1 none "BODY" "", mkEl 2 (some 1) "DIV" "", mkEl 3 (some 2) "P" c3text]

/-- A body whose sole child is a div. -/
def storeC7 : List ElementInfo := [mkEl 1 none "BODY" "", mkEl 2 (some 1) "DIV" ""]

/-- div > ol(a, b) where item b nests ol(c) and item c nests ol(d, e):
a three-level nested ordered list. -/
def storeC6 : List ElementInfo :=
  [mkEl 1 none "DIV" "", mkEl 2 (some 1) "OL" "",
   mkEl 3 (some 2) "LI" "a", mkEl 4 (some 2) "LI" "b",
   mkEl 5 (some 4) "OL" "", mkEl 6 (some 5) "LI" "c",
   mkEl 7 (some 6) "OL" "", mkEl 8 (some 7) "LI" "d", mkEl 9 (some 7) "LI" "e"]

def keepC6 : List Nat := [1, 2, 3, 4, 5, 6, 7, 8, 9]

/-- div > ol with three flat items. -/
def storeC6b : List ElementInfo :=
  [mkEl 1 none "DIV" "", mkEl 2 (some 1) "OL" "",
   mkEl 3 (some 2) "LI" "a", mkEl 4 (some 2) "LI" "b", mkEl 5 (some 2) "LI" "c"]

def keepC6b : List Nat := [1, 2, 3, 4, 5]

def preRec : ElementInfo :=
  { mkEl 2 (some 1) "PRE" "" with isCodeBlock := true }

def codeRec : ElementInfo :=
  { mkEl 3 (some 2) "CODE" "let x = 1;\n" with
      attributes := [("class", "language-js")] }

/-- div > pre > code.language-js, as phase 1 records it (`isCodeBlock` is true
on the pre record only). -/
def preStore : List ElementInfo := [mkEl 1 none "DIV" "", preRec, codeRec]

/-- A standalone inline code element. -/
def inlineCodeStore : List ElementInfo :=
  [mkEl 1 none "DIV" "", { mkEl 2 (some 1) "CODE" "a+b" with isCodeBlock := false }]

/-- A builder state whose metadata already holds a title. -/
def c8state : Phase1State :=
  { initialPhase1State with metadata := { title := some "T" } }

/-- The open paragraph record created by `.start "p" []`. -/
def pOpenRec : ElementInfo :=
  { id := 1, parentId := none, tagName := "P", attributes := [],
    textChunks := some [], finalTextContent := "", isVisibleBasedOnAttrs := true,
    role := none, isDataTableLikely := false, isCodeBlock := false }

/-- The state after opening a paragraph. -/
def c4state : Phase1State := runPhase1 0 [.start "p" []]


/-! ## Shared lemmas about the map and store primitives -/

theorem lookupN_append {α : Type} (l₁ l₂ : List (Nat × α)) (k : Nat) :
    lookupN (l₁ ++ l₂) k =
      (match lookupN l₁ k with | some v => some v | none => lookupN l₂ k) := by
  induction l₁ with
  | nil => rfl
  | cons p ps ih => by_cases hp : p.1 = k <;> simp [lookupN, hp, ih]

theorem lookupN_map_set_self {α : Type} (l : List (Nat × α)) (k : Nat) (v : α) :
    lookupN (l.map (fun p => if p.1 = k then (k, v) else p)) k =
      (lookupN l k).map (fun _ => v) := by
  induction l with
  | nil => rfl
  | cons p ps ih =>
    by_cases hp : p.1 = k
    · simp [lookupN, hp]
    · simp only [List.map_cons, if_neg hp, lookupN]
      exact ih

theorem lookupN_map_set_ne {α : Type} (l : List (Nat × α)) (k k' : Nat) (v : α)
    (h : k' ≠ k) :
    lookupN (l.map (fun p => if p.1 = k then (k, v) else p)) k' = lookupN l k' := by
  induction l with
  | nil => rfl
  | cons p ps ih =>
    by_cases hp : p.1 = k
    · simp only [List.map_cons, if_pos hp, lookupN]
      rw [if_neg (fun hh : k = k' => h hh.symm), if_neg (by rw [hp]; exact fun hh => h hh.symm)]
      exact ih
    · simp only [List.map_cons, if_neg hp, lookupN]
      by_cases hpk : p.1 = k'
      · simp [hpk]
      · rw [if_neg hpk, if_neg hpk]
        exact ih

theorem lookupN_setKeyN_self {α : Type} (l : List (Nat × α)) (k : Nat) (v : α) :
    lookupN (setKeyN l k v) k = some v := by
  unfold setKeyN
  by_cases h : (lookupN l k).isSome
  · rw [if_pos h, lookupN_map_set_self]
    cases hx : lookupN l k with
    | none => rw [hx] at h; simp at h
    | some a => simp
  · rw [if_neg h, lookupN_append]
    cases hx : lookupN l k with
    | some a => rw [hx] at h; simp at h
    | none => simp [lookupN]

theorem lookupN_setKeyN_ne {α : Type} (l : List (Nat × α)) (k k' : Nat) (v : α)
    (h : k' ≠ k) : lookupN (setKeyN l k v) k' = lookupN l k' := by
  unfold setKeyN
  by_cases hs : (lookupN l k).isSome
  · rw [if_pos hs]
    exact lookupN_map_set_ne l k k' v h
  · rw [if_neg hs, lookupN_append]
    have hk : ¬ k = k' := fun hh => h hh.symm
    cases hx : lookupN l k' with
    | some a => simp
    | none => simp [lookupN, hk]

theorem lookupN_eraseKeyN_self {α : Type} (l : List (Nat × α)) (k : Nat) :
    lookupN (eraseKeyN l k) k = none := by
  induction l with
  | nil => rfl
  | cons p ps ih =>
    by_cases hp : p.1 = k
    · simpa [eraseKeyN, List.filter, hp] using ih
    · simpa [eraseKeyN, List.filter, hp, lookupN] using ih

theorem lookupN_eraseKeyN_ne {α : Type} (l : List (Nat × α)) (k k' : Nat)
    (h : k' ≠ k) : lookupN (eraseKeyN l k) k' = lookupN l k' := by
  have hk : ¬ k = k' := fun hh => h hh.symm
  induction l with
  | nil => rfl
  | cons p ps ih =>
    by_cases hp : p.1 = k
    · simpa [eraseKeyN, List.filter, hp, lookupN, hk] using ih
    · by_cases hpk : p.1 = k'
      · simp [eraseKeyN, List.filter, hp, lookupN, hpk, h]
      · simpa [eraseKeyN, List.filter, hp, lookupN, hpk] using ih

theorem getElementInfo_updateStore_self (store : List ElementInfo) (i : Nat)
    (f : ElementInfo → ElementInfo) (hf : ∀ e, (f e).id = e.id) :
    getElementInfo i (updateStore store i f) = (getElementInfo i store).map f := by
  induction store with
  | nil => rfl
  | cons e es ih =>
    by_cases he : e.id = i
    · simp [updateStore, getElementInfo, he, hf e]
    · simpa [updateStore, getElementInfo, he] using ih

theorem updateStore_length (store : List ElementInfo) (i : Nat)
    (f : ElementInfo → ElementInfo) :
    (updateStore store i f).length = store.length := by
  simp [updateStore]

theorem pushChunkUpd_id (chunk : String) (e : ElementInfo) :
    (pushChunkUpd chunk e).id = e.id := rfl

theorem splitCommaSegs_len (l : List Char) :
    (splitCommaSegs l).2.length = l.countP isCommaChar := by
  induction l with
  | nil => simp [splitCommaSegs]
  | cons c cs ih =>
    simp only [splitCommaSegs, List.countP_cons]
    by_cases h : isCommaChar c
    · simp [h, ih]
    · simp [h, ih]

/-- C9: running the pipeline twice over an identical captured event sequence
with the same base URI and options yields an identical result (Markdown and
metadata); each invocation resets the per-call store, id counter and metadata
record, so the result does not depend on the instance state it starts from. -/
theorem c9_determinism :
    (∀ s₁ s₂ baseURI o events,
      (processFrom s₁ baseURI o events).1 = (processFrom s₂ baseURI o events).1) ∧
    (∀ s baseURI o events,
      (processFrom (processFrom s baseURI o events).2 baseURI o events).1 =
        (processFrom s baseURI o events).1) := by
  constructor
  · intro s₁ s₂ baseURI o events; rfl
  · intro s baseURI o events; rfl

/-- C3 (amended): the base content score the scorer propagates equals
`2 + commaCount + min(floor(len/100), 3)` — one more than the spec's
`1 + commaCount + …`, because `split(COMMAS_REGEX).length` counts one more
than the number of commas; the parent (level 0) receives exactly this value
since the level-0 divisor is 1. -/
theorem c3_base_score_amended (s : String) :
    baseContentScore s =
      JNum.ofInt (2 + (commaCount s : Int) + ((min (s.length / 100) 3 : Nat) : Int)) ∧
    baseContentScore s = JNum.add (specBaseContentScore s) (JNum.ofInt 1) ∧
    JNum.div (baseContentScore s) (scoreDivider 0) = baseContentScore s := by
  have hn : numSplitParts s = commaCount s + 1 := by
    unfold numSplitParts commaCount
    rw [splitCommaSegs_len]
  refine ⟨?_, ?_, ?_⟩
  · unfold baseContentScore
    rw [hn]
    congr 1
    push_cast
    ring
  · unfold baseContentScore specBaseContentScore JNum.add JNum.ofInt
    rw [hn]
    simp
    ring
  · simp [scoreDivider, JNum.div, JNum.ofInt, baseContentScore]

/-- C3 (counterexample): on a 25-character comma-free text the scorer's base
score is 2 while the spec's formula gives 1; the div parent of the scored
paragraph, seeded with tag bias 5, accumulates a score of 7, not 6. -/
theorem c3_base_score_counterexample :
    baseContentScore c3text = JNum.ofInt 2 ∧
    specBaseContentScore c3text = JNum.ofInt 1 ∧
    JNum.ofInt 2 ≠ JNum.ofInt 1 ∧
    lookupN (propagateScores storeC3).readMap 2 = some (JNum.ofInt 7) := by
  refine ⟨by decide, by decide, by decide, by decide⟩

/-- C7 (amended): the sole-child climb replaces the candidate by its parent
exactly while the parent exists (with a nonzero id), the *current candidate*
is not the body element, and the candidate is its parent's sole child; it
stops when the current candidate is body or the parent has another child — in
particular it can climb onto the body element itself. -/
theorem c7_sole_child_amended :
    (∀ store fuel id p info,
      getParentId id store = some p → p ≠ 0 →
      getElementInfo id store = some info → info.tagName ≠ "BODY" →
      (getChildrenIds p store).length = 1 →
      soleChildClimb store (fuel + 1) id = soleChildClimb store fuel p) ∧
    (∀ store fuel id info,
      getElementInfo id store = some info → info.tagName = "BODY" →
      soleChildClimb store (fuel + 1) id = id) ∧
    (∀ store fuel id p,
      getParentId id store = some p → (getChildrenIds p store).length ≠ 1 →
      soleChildClimb store (fuel + 1) id = id) := by
  refine ⟨?_, ?_, ?_⟩
  · intro store fuel id p info hp hp0 hi ht hc
    simp [soleChildClimb, hp, hi, hp0, ht, hc]
  · intro store fuel id info hi ht
    cases hp : getParentId id store with
    | none => simp [soleChildClimb, hp, hi]
    | some p =>
      by_cases h0 : p = 0
      · simp [soleChildClimb, hp, hi, h0]
      · simp [soleChildClimb, hp, hi, h0, ht]
  · intro store fuel id p hp hc
    cases hi : getElementInfo id store with
    | none => simp [soleChildClimb, hp, hi]
    | some info =>
      by_cases h0 : p = 0
      · simp [soleChildClimb, hp, hi, h0]
      · by_cases hb : info.tagName = "BODY"
        · simp [soleChildClimb, hp, hi, h0, hb]
        · simp [soleChildClimb, hp, hi, h0, hb, hc]

/-- C7 (witness): on the body > div store the climb takes one step from the
div onto its parent, and stops at the body element. -/
theorem c7_sole_child_amended_witness :
    soleChildClimb storeC7 2 2 = soleChildClimb storeC7 1 1 ∧
    soleChildClimb storeC7 2 1 = 1 := by
  constructor
  · exact c7_sole_child_amended.1 storeC7 1 2 1 (mkEl 2 (some 1) "DIV" "")
      (by decide) (by decide) (by decide) (by decide) (by decide)
  · exact c7_sole_child_amended.2.1 storeC7 1 1 (mkEl 1 none "BODY" "")
      (by decide) (by decide)

/-- C7 (counterexample): with the candidate a div that is the sole child of
body, the claim says the climb stops because the parent is body, leaving the
candidate at the div (id 2); the code instead climbs onto the body element
(id 1), because the guard tests the current candidate's tag, not the
parent's. -/
theorem c7_sole_child_counterexample :
    soleChildClimb storeC7 (storeC7.length + 1) 2 = 1 ∧
    (getElementInfo 1 storeC7).map (fun e => e.tagName) = some "BODY" ∧
    (1 : Nat) ≠ 2 := by
  refine ⟨by decide, by decide, by decide⟩

/-- C6 (counterexample): on a three-level nested ordered list the third level
is rendered with a two-space indent, not the four spaces that two additional
spaces per nesting level would give. -/
theorem c6_nested_list_counterexample :
    convert storeC6 keepC6 "https://example.com/" (some 1) =
      "1. a\n2. b\n  1. c\n  1. d\n  2. e" ∧
    "1. a\n2. b\n  1. c\n  1. d\n  2. e" ≠
      "1. a\n2. b\n  1. c\n    1. d\n    2. e" := by
  refine ⟨by decide, by decide⟩

/-- C1: whenever the scorer returns a non-empty result, the summed visible
text length of the retained elements is at least the configured
`charThreshold`; and whenever the pre-gate selection exists but its summed
text length is below the threshold, the whole result is discarded and the
empty result is returned. -/
theorem c1_threshold_gate :
    (∀ store options id,
      (calculateScoresAndFindBestCandidate store options).1 = some id →
      options.charThreshold ≤
        gateTextLength store (calculateScoresAndFindBestCandidate store options).2) ∧
    (∀ store options p,
      calcSelect store = some p →
      gateTextLength store p.2 < options.charThreshold →
      calculateScoresAndFindBestCandidate store options = (none, [])) := by
  constructor
  · intro store options id h
    unfold calculateScoresAndFindBestCandidate at h ⊢
    cases hsel : calcSelect store with
    | none => simp [hsel] at h
    | some p =>
      simp only [hsel] at h ⊢
      by_cases hlt : gateTextLength store p.2 < options.charThreshold
      · simp [hlt] at h
      · simp [hlt]
        exact Nat.le_of_not_lt hlt
  · intro store options p hsel hlt
    unfold calculateScoresAndFindBestCandidate
    rw [hsel]
    simp [hlt]

/-- C1 (witness): on the body > div > p store with 40 characters of text and
`charThreshold := 30`, the scorer returns a result and the retained text
length (40) meets the threshold. -/
theorem c1_threshold_gate_witness :
    ({ charThreshold := 30 : ScoringOptions }).charThreshold ≤
      gateTextLength storeW
        (calculateScoresAndFindBestCandidate storeW { charThreshold := 30 }).2 := by
  exact c1_threshold_gate.1 storeW { charThreshold := 30 } 1 (by decide)

/-- C2: if no candidate attains a positive link-density-adjusted score, the
scorer returns the empty result (null candidate, empty retained list), and the
whole extraction returns no result (the embedding is a total function, so no
exception is possible). -/
theorem c2_no_positive_candidate :
    (∀ store options,
      (∀ q ∈ candidateScoresOf store, JNum.lt (JNum.ofInt 0) q.2 = false) →
      calculateScoresAndFindBestCandidate store options = (none, [])) ∧
    (∀ baseURI o events,
      (∀ q ∈ candidateScoresOf (runPhase1 o.maxElemsToParse events).elementStore,
        JNum.lt (JNum.ofInt 0) q.2 = false) →
      processEvents baseURI o events = none) := by
  have key : ∀ store options,
      (∀ q ∈ candidateScoresOf store, JNum.lt (JNum.ofInt 0) q.2 = false) →
      calculateScoresAndFindBestCandidate store options = (none, []) := by
    intro store options h
    have hfil : (candidateScoresOf store).filter (fun q => JNum.lt (JNum.ofInt 0) q.2) = [] := by
      rw [List.filter_eq_nil_iff]
      intro a ha
      simp [h a ha]
    unfold calculateScoresAndFindBestCandidate calcSelect
    unfold candidateScoresOf at hfil
    simp only [hfil, sortDescQ]
  constructor
  · exact key
  · intro baseURI o events h
    have hr : calculateScoresAndFindBestCandidate
        (runPhase1 o.maxElemsToParse events).elementStore (toScoringOptions o) = (none, []) :=
      key _ _ h
    have hsame : (foldPhase1From o.maxElemsToParse
        { elementStore := (resetState initialRwState).elementStore,
          metadata := (resetState initialRwState).metadata,
          elementCounter := (resetState initialRwState).elementCounter,
          elementStack := [], elementCount := 0, lastTextChunkMap := [] } events) =
        runPhase1 o.maxElemsToParse events := rfl
    simp only [processEvents, processFrom, hsame, hr]

/-- C2 (witness): on the empty event stream there are no candidates, the
scorer returns the empty result and the extraction returns no result. -/
theorem c2_no_positive_candidate_witness :
    calculateScoresAndFindBestCandidate [] {} = (none, []) ∧
    processEvents "https://example.com/" {} [] = none := by
  constructor
  · exact c2_no_positive_candidate.1 [] {} (by decide)
  · exact c2_no_positive_candidate.2 "https://example.com/" {} [] (by decide)

theorem phase1Text_count_len (s : Phase1State) (chunk : String) :
    (phase1Text s chunk).elementCount = s.elementCount ∧
    (phase1Text s chunk).elementStore.length = s.elementStore.length := by
  unfold phase1Text
  cases h : s.elementStack.head? with
  | none => exact ⟨rfl, rfl⟩
  | some cur =>
    by_cases ht : (jsTrim chunk).length = 0
    · simp [ht]
    · cases hi : getElementInfo cur s.elementStore with
      | none => simp [ht, hi]
      | some info =>
        by_cases hv : info.tagName ∈ VOID_ELEMENTS
        · simp [ht, hi, hv]
        · by_cases hl : lookupN s.lastTextChunkMap cur = some chunk
          · simp [ht, hi, hv, hl]
          · simp [ht, hi, hv, hl, updateStore_length]

theorem phase1OnEndTag_count_len (s : Phase1State) :
    (phase1OnEndTag s).elementCount = s.elementCount ∧
    (phase1OnEndTag s).elementStore.length = s.elementStore.length := by
  unfold phase1OnEndTag
  cases hs : s.elementStack with
  | nil => exact ⟨rfl, rfl⟩
  | cons fid rest =>
    cases hi : getElementInfo fid s.elementStore with
    | none => simp [hi]
    | some info =>
      by_cases ht : info.tagName = "TITLE" && optFalsy s.metadata.title
      · simp [hi, ht, updateStore_length]
      · simp [hi, ht, updateStore_length]

theorem phase1Element_count_store (maxE : Nat) (s : Phase1State)
    (tag : String) (attrs : List (String × String)) :
    ((0 < maxE && maxE ≤ s.elementCount) = true ∧ phase1Element maxE s tag attrs = s) ∨
    ((0 < maxE && maxE ≤ s.elementCount) = false ∧
      (phase1Element maxE s tag attrs).elementCount = s.elementCount + 1 ∧
      ((phase1Element maxE s tag attrs).elementStore = s.elementStore ∨
        (phase1Element maxE s tag attrs).elementStore.length = s.elementStore.length + 1)) := by
  by_cases hcap : (0 < maxE && maxE ≤ s.elementCount) = true
  · left
    refine ⟨hcap, ?_⟩
    unfold phase1Element
    simp [hcap]
  · right
    have hcap' : (0 < maxE && maxE ≤ s.elementCount) = false := by
      simpa using hcap
    refine ⟨hcap', ?_, ?_⟩
    · unfold phase1Element
      rw [if_neg (by simp [hcap'])]
      by_cases hskip : isSkippedStartTag (toUpperStr tag) attrs = true
      · rw [if_pos hskip]
      · rw [if_neg hskip]
        split_ifs <;> rfl
    · unfold phase1Element
      rw [if_neg (by simp [hcap'])]
      by_cases hskip : isSkippedStartTag (toUpperStr tag) attrs = true
      · left
        rw [if_pos hskip]
      · right
        rw [if_neg hskip]
        split_ifs <;> simp [updateStore_length]

theorem phase1Step_cap_inv (maxE : Nat) (s : Phase1State) (e : HtmlEvent)
    (h0 : 0 < maxE)
    (h1 : s.elementStore.length ≤ s.elementCount) (h2 : s.elementCount ≤ maxE) :
    (phase1Step maxE s e).elementStore.length ≤ (phase1Step maxE s e).elementCount ∧
    (phase1Step maxE s e).elementCount ≤ maxE := by
  cases e with
  | start tag attrs =>
    simp only [phase1Step]
    rcases phase1Element_count_store maxE s tag attrs with ⟨hcap, heq⟩ | ⟨hcap, hcount, hstore⟩
    · rw [heq]; exact ⟨h1, h2⟩
    · have hlt : s.elementCount < maxE := by
        by_contra hge
        have : (0 < maxE && maxE ≤ s.elementCount) = true := by
          simp [h0, Nat.le_of_not_lt hge]
        rw [this] at hcap; cases hcap
      constructor
      · rw [hcount]
        rcases hstore with hs | hs
        · rw [hs]; omega
        · rw [hs]; omega
      · rw [hcount]; omega
  | text chunk =>
    have hcl := phase1Text_count_len s chunk
    simp only [phase1Step]
    rw [hcl.1, hcl.2]; exact ⟨h1, h2⟩
  | endTag =>
    have hcl := phase1OnEndTag_count_len s
    simp only [phase1Step]
    rw [hcl.1, hcl.2]; exact ⟨h1, h2⟩
  | docEnd => exact ⟨h1, h2⟩

theorem foldPhase1_cap_inv (maxE : Nat) (h0 : 0 < maxE) :
    ∀ (events : List HtmlEvent) (s : Phase1State),
      s.elementStore.length ≤ s.elementCount → s.elementCount ≤ maxE →
      (foldPhase1From maxE s events).elementStore.length ≤
        (foldPhase1From maxE s events).elementCount ∧
      (foldPhase1From maxE s events).elementCount ≤ maxE := by
  intro events
  induction events with
  | nil => intro s h1 h2; exact ⟨h1, h2⟩
  | cons e es ih =>
    intro s h1 h2
    have hstep := phase1Step_cap_inv maxE s e h0 h1 h2
    exact ih (phase1Step maxE s e) hstep.1 hstep.2

/-- C10: with a positive max-elements cap N, (a) the element store never holds
more than N records; (b) a skipped start tag (script, style, noscript,
iframe, stylesheet link) still consumes one unit of the cap while recording
nothing; and (c) on the concrete stream script, div, div with N = 2 the store
ends with a single record although two recordable start tags arrived. -/
theorem c10_max_elements_cap :
    (∀ maxE events, 0 < maxE →
      (runPhase1 maxE events).elementStore.length ≤ maxE) ∧
    (∀ maxE s tag attrs, isSkippedStartTag (toUpperStr tag) attrs = true →
      s.elementCount < maxE →
      (phase1Element maxE s tag attrs).elementCount = s.elementCount + 1 ∧
      (phase1Element maxE s tag attrs).elementStore = s.elementStore) ∧
    ((runPhase1 2 [.start "script" [], .start "div" [], .start "div" []]).elementStore.length = 1 ∧
      (1 : Nat) < 2) := by
  refine ⟨?_, ?_, by decide, by decide⟩
  · intro maxE events h0
    have h := foldPhase1_cap_inv maxE h0 events initialPhase1State
      (by simp [initialPhase1State]) (by simp [initialPhase1State])
    exact Nat.le_trans h.1 h.2
  · intro maxE s tag attrs hskip hlt
    have hcap : ¬ (0 < maxE && maxE ≤ s.elementCount) = true := by
      simp only [Bool.and_eq_true, decide_eq_true_eq, not_and]
      intro _
      omega
    constructor
    · unfold phase1Element
      rw [if_neg hcap, if_pos hskip]
    · unfold phase1Element
      rw [if_neg hcap, if_pos hskip]

/-- C10 (witness): the cap bound at N = 1 on the empty stream, and one skipped
script start tag consuming a cap unit from the initial state. -/
theorem c10_max_elements_cap_witness :
    (runPhase1 1 []).elementStore.length ≤ 1 ∧
    ((phase1Element 1 initialPhase1State "script" []).elementCount =
        initialPhase1State.elementCount + 1 ∧
      (phase1Element 1 initialPhase1State "script" []).elementStore =
        initialPhase1State.elementStore) := by
  constructor
  · exact c10_max_elements_cap.1 1 [] (by decide)
  · exact c10_max_elements_cap.2.1 1 initialPhase1State "script" [] (by decide) (by decide)

theorem mergeMetaField_some (t : String) (ht : t ≠ "") (x : Option String) :
    mergeMetaField (some t) x = some t := by
  cases x with
  | none => rfl
  | some v =>
    unfold mergeMetaField optFalsy
    simp [String.isEmpty_iff, ht]

theorem phase1Text_metadata (s : Phase1State) (chunk : String) :
    (phase1Text s chunk).metadata = s.metadata := by
  unfold phase1Text
  cases h : s.elementStack.head? with
  | none => rfl
  | some cur =>
    by_cases ht : (jsTrim chunk).length = 0
    · simp [ht]
    · cases hi : getElementInfo cur s.elementStore with
      | none => simp [ht, hi]
      | some info =>
        by_cases hv : info.tagName ∈ VOID_ELEMENTS
        · simp [ht, hi, hv]
        · by_cases hl : lookupN s.lastTextChunkMap cur = some chunk
          · simp [ht, hi, hv, hl]
          · simp [ht, hi, hv, hl]

theorem phase1OnEndTag_meta_fields (s : Phase1State) :
    (phase1OnEndTag s).metadata.byline = s.metadata.byline ∧
    (phase1OnEndTag s).metadata.excerpt = s.metadata.excerpt ∧
    (phase1OnEndTag s).metadata.siteName = s.metadata.siteName ∧
    (phase1OnEndTag s).metadata.publishedTime = s.metadata.publishedTime ∧
    (phase1OnEndTag s).metadata.jsonLd = s.metadata.jsonLd ∧
    (optFalsy s.metadata.title = false →
      (phase1OnEndTag s).metadata.title = s.metadata.title) := by
  unfold phase1OnEndTag
  cases hs : s.elementStack with
  | nil => simp
  | cons fid rest =>
    cases hx : getElementInfo fid s.elementStore with
    | none => simp [hx]
    | some info =>
      by_cases hc : (info.tagName = "TITLE" && optFalsy s.metadata.title) = true
      · refine ⟨by simp [hx, hc], by simp [hx, hc], by simp [hx, hc],
          by simp [hx, hc], by simp [hx, hc], ?_⟩
        intro hf
        rw [Bool.and_eq_true] at hc
        rw [hf] at hc
        cases hc.2
      · simp [hx, hc]

theorem phase1Step_meta_preserved (maxE : Nat) (s : Phase1State) (e : HtmlEvent) :
    (∀ t, t ≠ "" → s.metadata.title = some t →
      (phase1Step maxE s e).metadata.title = some t) ∧
    (∀ t, t ≠ "" → s.metadata.byline = some t →
      (phase1Step maxE s e).metadata.byline = some t) ∧
    (∀ t, t ≠ "" → s.metadata.excerpt = some t →
      (phase1Step maxE s e).metadata.excerpt = some t) ∧
    (∀ t, t ≠ "" → s.metadata.siteName = some t →
      (phase1Step maxE s e).metadata.siteName = some t) ∧
    (∀ t, t ≠ "" → s.metadata.publishedTime = some t →
      (phase1Step maxE s e).metadata.publishedTime = some t) ∧
    (phase1Step maxE s e).metadata.jsonLd = s.metadata.jsonLd := by
  cases e with
  | start tag attrs =>
    simp only [phase1Step]
    unfold phase1Element
    by_cases hcap : (0 < maxE && maxE ≤ s.elementCount) = true
    · rw [if_pos hcap]
      exact ⟨fun _ _ h => h, fun _ _ h => h, fun _ _ h => h, fun _ _ h => h,
        fun _ _ h => h, rfl⟩
    · rw [if_neg hcap]
      by_cases hskip : isSkippedStartTag (toUpperStr tag) attrs = true
      · rw [if_pos hskip]
        exact ⟨fun _ _ h => h, fun _ _ h => h, fun _ _ h => h, fun _ _ h => h,
          fun _ _ h => h, rfl⟩
      · rw [if_neg hskip]
        refine ⟨?_, ?_, ?_, ?_, ?_, ?_⟩ <;>
          · first
            | (intro t ht hs
               split_ifs <;>
                 simp [mergeMeta, hs, mergeMetaField_some t ht])
            | (split_ifs <;> simp [mergeMeta, mergeMetaField])
  | text chunk =>
    simp only [phase1Step, phase1Text_metadata]
    exact ⟨fun _ _ h => h, fun _ _ h => h, fun _ _ h => h, fun _ _ h => h,
      fun _ _ h => h, trivial⟩
  | endTag =>
    have hm := phase1OnEndTag_meta_fields s
    simp only [phase1Step]
    refine ⟨?_, ?_, ?_, ?_, ?_, hm.2.2.2.2.1⟩
    · intro t ht hmt
      have hf : optFalsy s.metadata.title = false := by
        rw [hmt]
        unfold optFalsy
        rw [Bool.eq_false_iff]
        intro hI
        exact ht ((String.isEmpty_iff t).mp hI)
      rw [hm.2.2.2.2.2 hf, hmt]
    · intro t ht hmt; rw [hm.1, hmt]
    · intro t ht hmt; rw [hm.2.1, hmt]
    · intro t ht hmt; rw [hm.2.2.1, hmt]
    · intro t ht hmt; rw [hm.2.2.2.1, hmt]
  | docEnd =>
    exact ⟨fun _ _ h => h, fun _ _ h => h, fun _ _ h => h, fun _ _ h => h,
      fun _ _ h => h, rfl⟩

/-- C8 (amended): title, byline, excerpt, site name and published time are
first-writer-wins — once set (to a non-empty string, the only values the
builder ever writes), no later event changes them — and the structured-data
slot is never written at all; the language and direction fields are *not*
first-writer-wins: every html start tag overwrites them with its own `lang`
and `dir` attribute values (or clears them when the attribute is absent). -/
theorem c8_metadata_first_writer_amended :
    (∀ maxE events s t, t ≠ "" → s.metadata.title = some t →
      (foldPhase1From maxE s events).metadata.title = some t) ∧
    (∀ maxE events s t, t ≠ "" → s.metadata.byline = some t →
      (foldPhase1From maxE s events).metadata.byline = some t) ∧
    (∀ maxE events s t, t ≠ "" → s.metadata.excerpt = some t →
      (foldPhase1From maxE s events).metadata.excerpt = some t) ∧
    (∀ maxE events s t, t ≠ "" → s.metadata.siteName = some t →
      (foldPhase1From maxE s events).metadata.siteName = some t) ∧
    (∀ maxE events s t, t ≠ "" → s.metadata.publishedTime = some t →
      (foldPhase1From maxE s events).metadata.publishedTime = some t) ∧
    (∀ maxE events s,
      (foldPhase1From maxE s events).metadata.jsonLd = s.metadata.jsonLd) ∧
    (∀ maxE s attrs, (0 < maxE && maxE ≤ s.elementCount) = false →
      (phase1Element maxE s "html" attrs).metadata.lang = rawAttr attrs "lang" ∧
      (phase1Element maxE s "html" attrs).metadata.dir = rawAttr attrs "dir") := by
  refine ⟨?_, ?_, ?_, ?_, ?_, ?_, ?_⟩
  · intro maxE events
    induction events with
    | nil => intro s t ht h; exact h
    | cons e es ih =>
      intro s t ht h
      exact ih (phase1Step maxE s e) t ht
        ((phase1Step_meta_preserved maxE s e).1 t ht h)
  · intro maxE events
    induction events with
    | nil => intro s t ht h; exact h
    | cons e es ih =>
      intro s t ht h
      exact ih (phase1Step maxE s e) t ht
        ((phase1Step_meta_preserved maxE s e).2.1 t ht h)
  · intro maxE events
    induction events with
    | nil => intro s t ht h; exact h
    | cons e es ih =>
      intro s t ht h
      exact ih (phase1Step maxE s e) t ht
        ((phase1Step_meta_preserved maxE s e).2.2.1 t ht h)
  · intro maxE events
    induction events with
    | nil => intro s t ht h; exact h
    | cons e es ih =>
      intro s t ht h
      exact ih (phase1Step maxE s e) t ht
        ((phase1Step_meta_preserved maxE s e).2.2.2.1 t ht h)
  · intro maxE events
    induction events with
    | nil => intro s t ht h; exact h
    | cons e es ih =>
      intro s t ht h
      exact ih (phase1Step maxE s e) t ht
        ((phase1Step_meta_preserved maxE s e).2.2.2.2.1 t ht h)
  · intro maxE events
    induction events with
    | nil => intro s; rfl
    | cons e es ih =>
      intro s
      rw [foldPhase1From, List.foldl_cons]
      rw [show List.foldl (phase1Step maxE) (phase1Step maxE s e) es =
        foldPhase1From maxE (phase1Step maxE s e) es from rfl]
      rw [ih (phase1Step maxE s e)]
      exact (phase1Step_meta_preserved maxE s e).2.2.2.2.2
  · intro maxE s attrs hcap
    constructor <;>
      simp [phase1Element, hcap, isSkippedStartTag, VOID_ELEMENTS,
        show toUpperStr "html" = "HTML" from by decide]

/-- C8 (counterexample): the language field is set to `en` by the first html
start tag and then overwritten to nothing by a second html start tag — a
later event changes an already-set metadata field. -/
theorem c8_metadata_counterexample :
    (runPhase1 0 [.start "html" [("lang", "en")]]).metadata.lang = some "en" ∧
    (runPhase1 0 [.start "html" [("lang", "en")], .start "html" []]).metadata.lang = none ∧
    some "en" ≠ (none : Option String) := by
  refine ⟨by decide, by decide, by decide⟩

/-- C8 (witness): a state holding title `T` keeps it across a meta event that
would otherwise set the title, and the html-overwrite clause instantiated on
the initial state. -/
theorem c8_metadata_first_writer_witness :
    (foldPhase1From 0 c8state
        [.start "meta" [("property", "og:title"), ("content", "other")]]).metadata.title =
      some "T" ∧
    (phase1Element 0 initialPhase1State "html" [("lang", "en")]).metadata.lang = some "en" := by
  constructor
  · exact c8_metadata_first_writer_amended.1 0
      [.start "meta" [("property", "og:title"), ("content", "other")]]
      c8state "T" (by decide) (by decide)
  · exact (c8_metadata_first_writer_amended.2.2.2.2.2.2 0 initialPhase1State
      [("lang", "en")] (by decide)).1

/-- C5: a preformatted block with a code child renders exactly the fence
built from the code child's raw (unescaped, trimmed) text with a `language-*`
class token as fence language — the code child's own rendering contributes
nothing to it; a code element that is not a preformatted block (phase 1 sets
`isCodeBlock` only on pre records) renders as an inline backtick span. -/
theorem c5_pre_code_rendering :
    (∀ store keep baseURI fuel id info cinfo listLevel isOrdered num,
      getElementInfo id store = some info → info.tagName = "PRE" →
      keep.contains id = true →
      findCodeChild store (getChildrenIds id store) = some cinfo →
      convertNodeRecursive store keep baseURI (fuel + 1) id listLevel isOrdered num =
        listIndentOf listLevel ++ "```" ++
          ((matchLanguageClass ((attrGet cinfo.attributes "class").getD "").data).getD "") ++
          "\n" ++ jsTrim (getInnerText cinfo.id store false) ++ "\n" ++
          listIndentOf listLevel ++ "```" ++ "\n\n") ∧
    (∀ store keep baseURI fuel id info listLevel isOrdered num,
      getElementInfo id store = some info → info.tagName = "CODE" →
      info.isCodeBlock = false → keep.contains id = true →
      convertNodeRecursive store keep baseURI (fuel + 1) id listLevel isOrdered num =
        "`" ++ jsTrim (elementTextOf store id ++
          convertChildrenOf store keep baseURI fuel "CODE" listLevel
            (getChildrenIds id store)) ++ "`") := by
  constructor
  · intro store keep baseURI fuel id info cinfo listLevel isOrdered num hi ht hkeep hfind
    simp only [convertNodeRecursive, hi, hkeep, ht, hfind]
    simp
  · intro store keep baseURI fuel id info listLevel isOrdered num hi ht hcb hkeep
    simp only [convertNodeRecursive, hi, hkeep, ht, hcb]
    simp [convertChildrenOf]

/-- C5 (witness): on the div > pre > code.language-js store the pre block
renders the js fence from the code child's raw text, and the same code record
rendered standalone yields an inline backtick span. -/
theorem c5_pre_code_rendering_witness :
    convertNodeRecursive preStore [1, 2, 3] "https://example.com/" 4 2 0 false 1 =
      "```js\nlet x = 1;\n```\n\n" ∧
    convertNodeRecursive preStore [1, 2, 3] "https://example.com/" 4 3 0 false 1 =
      "`let x = 1;`" := by
  constructor
  · have h := c5_pre_code_rendering.1 preStore [1, 2, 3] "https://example.com/" 3 2
      preRec codeRec 0 false 1 (by decide) (by decide) (by decide) (by decide)
    exact h.trans (by decide)
  · have h := c5_pre_code_rendering.2 preStore [1, 2, 3] "https://example.com/" 3 3
      codeRec 0 false 1 (by decide) (by decide) (by decide) (by decide)
    exact h.trans (by decide)

/-- The recording branch of the text handler: a significant chunk that differs
from the element's last recorded chunk is appended and becomes the new
suppression entry. -/
theorem phase1Text_record (s : Phase1State) (chunk : String) (cur : Nat)
    (info : ElementInfo)
    (hh : s.elementStack.head? = some cur)
    (ht : (jsTrim chunk).length ≠ 0)
    (hi : getElementInfo cur s.elementStore = some info)
    (hv : ¬ info.tagName ∈ VOID_ELEMENTS)
    (hl : lookupN s.lastTextChunkMap cur ≠ some chunk) :
    phase1Text s chunk =
      { s with
        elementStore := updateStore s.elementStore cur (pushChunkUpd chunk),
        lastTextChunkMap := setKeyN s.lastTextChunkMap cur chunk } := by
  unfold phase1Text
  have hv' : ¬ VOID_ELEMENTS.contains info.tagName = true := by simpa using hv
  simp only [hh, if_neg ht, hi, if_neg hv', if_neg hl]

/-- C4 (amended): (a) two byte-identical adjacent chunks are recorded as if
delivered once; (b) a repeated chunk with a different chunk in between is
recorded both times; (c) the per-element suppression entry is discarded when
that element closes; (d) opening a new element does *not* discard any existing
element's entry — the open only deletes the fresh element's own (necessarily
absent) key — so a chunk repeated to the parent after a child element has
opened and closed is still suppressed. -/
theorem c4_text_suppression_amended :
    (∀ s chunk, phase1Text (phase1Text s chunk) chunk = phase1Text s chunk) ∧
    (∀ s c d cur info,
      s.elementStack.head? = some cur →
      (jsTrim c).length ≠ 0 → (jsTrim d).length ≠ 0 →
      getElementInfo cur s.elementStore = some info →
      ¬ info.tagName ∈ VOID_ELEMENTS →
      lookupN s.lastTextChunkMap cur ≠ some c →
      c ≠ d →
      getElementInfo cur
          (phase1Text (phase1Text (phase1Text s c) d) c).elementStore =
        some (pushChunkUpd c (pushChunkUpd d (pushChunkUpd c info)))) ∧
    (∀ s fid rest, s.elementStack = fid :: rest →
      lookupN (phase1OnEndTag s).lastTextChunkMap fid = none) ∧
    (∀ maxE s tag attrs i, i ≤ s.elementCounter →
      lookupN (phase1Element maxE s tag attrs).lastTextChunkMap i =
        lookupN s.lastTextChunkMap i) := by
  refine ⟨?_, ?_, ?_, ?_⟩
  · intro s chunk
    cases hh : s.elementStack.head? with
    | none =>
      have hid : phase1Text s chunk = s := by
        unfold phase1Text; simp only [hh]
      rw [hid, hid]
    | some cur =>
      by_cases ht : (jsTrim chunk).length = 0
      · have hid : phase1Text s chunk = s := by
          unfold phase1Text; simp only [hh, if_pos ht]
        rw [hid, hid]
      · cases hi : getElementInfo cur s.elementStore with
        | none =>
          have hid : phase1Text s chunk = s := by
            unfold phase1Text; simp only [hh, if_neg ht, hi]
          rw [hid, hid]
        | some info =>
          by_cases hv : info.tagName ∈ VOID_ELEMENTS
          · have hid : phase1Text s chunk = s := by
              unfold phase1Text
              simp only [hh, if_neg ht, hi, if_pos (by simpa using hv : VOID_ELEMENTS.contains info.tagName = true)]
            rw [hid, hid]
          · by_cases hl : lookupN s.lastTextChunkMap cur = some chunk
            · have hid : phase1Text s chunk = s := by
                unfold phase1Text
                have hv' : ¬ VOID_ELEMENTS.contains info.tagName = true := by simpa using hv
                simp only [hh, if_neg ht, hi, if_neg hv', if_pos hl]
              rw [hid, hid]
            · have hstep := phase1Text_record s chunk cur info hh ht hi hv hl
              rw [hstep]
              have hi1 : getElementInfo cur
                  (updateStore s.elementStore cur (pushChunkUpd chunk)) =
                  some (pushChunkUpd chunk info) := by
                rw [getElementInfo_updateStore_self s.elementStore cur
                  (pushChunkUpd chunk) (pushChunkUpd_id chunk), hi]
                rfl
              unfold phase1Text
              have hv1 : ¬ VOID_ELEMENTS.contains (pushChunkUpd chunk info).tagName = true := by
                simpa [pushChunkUpd] using hv
              simp only [hh, if_neg ht, hi1, if_neg hv1, lookupN_setKeyN_self]
              simp
  · intro s c d cur info hh htc htd hi hv hl hcd
    have h1 := phase1Text_record s c cur info hh htc hi hv hl
    have hi1 : getElementInfo cur
        (updateStore s.elementStore cur (pushChunkUpd c)) =
        some (pushChunkUpd c info) := by
      rw [getElementInfo_updateStore_self s.elementStore cur
        (pushChunkUpd c) (pushChunkUpd_id c), hi]
      rfl
    have h2 := phase1Text_record (phase1Text s c) d cur (pushChunkUpd c info)
      (by rw [h1]; exact hh) htd (by rw [h1]; exact hi1)
      (by simpa [pushChunkUpd] using hv)
      (by rw [h1]
          show lookupN (setKeyN s.lastTextChunkMap cur c) cur ≠ some d
          rw [lookupN_setKeyN_self]
          exact fun hx => hcd (Option.some.inj hx))
    have hi2 : getElementInfo cur
        (updateStore (updateStore s.elementStore cur (pushChunkUpd c)) cur (pushChunkUpd d)) =
        some (pushChunkUpd d (pushChunkUpd c info)) := by
      rw [getElementInfo_updateStore_self _ cur (pushChunkUpd d) (pushChunkUpd_id d), hi1]
      rfl
    have h3 := phase1Text_record (phase1Text (phase1Text s c) d) c cur
      (pushChunkUpd d (pushChunkUpd c info))
      (by rw [h2, h1]; exact hh) htc
      (by rw [h2, h1]; exact hi2)
      (by simpa [pushChunkUpd] using hv)
      (by rw [h2, h1]
          show lookupN (setKeyN (setKeyN s.lastTextChunkMap cur c) cur d) cur ≠ some c
          rw [lookupN_setKeyN_self]
          exact fun hx => hcd (Option.some.inj hx).symm)
    rw [h3, h2, h1]
    show getElementInfo cur
        (updateStore (updateStore (updateStore s.elementStore cur (pushChunkUpd c)) cur
          (pushChunkUpd d)) cur (pushChunkUpd c)) = _
    rw [getElementInfo_updateStore_self _ cur (pushChunkUpd c) (pushChunkUpd_id c), hi2]
    rfl
  · intro s fid rest hs
    unfold phase1OnEndTag
    rw [hs]
    cases hx : getElementInfo fid s.elementStore with
    | none => simp [hx, lookupN_eraseKeyN_self]
    | some info =>
      by_cases hc : (info.tagName = "TITLE" && optFalsy s.metadata.title) = true
      · simp [hx, hc, lookupN_eraseKeyN_self]
      · simp [hx, hc, lookupN_eraseKeyN_self]
  · intro maxE s tag attrs i hile
    have hne : i ≠ s.elementCounter + 1 := by omega
    unfold phase1Element
    by_cases hcap : (0 < maxE && maxE ≤ s.elementCount) = true
    · rw [if_pos hcap]
    · rw [if_neg hcap]
      by_cases hskip : isSkippedStartTag (toUpperStr tag) attrs = true
      · rw [if_pos hskip]
      · rw [if_neg hskip]
        by_cases hvoid : toUpperStr tag ∈ VOID_ELEMENTS
        · simp only [if_pos hvoid]
          split_ifs <;> simp [lookupN_eraseKeyN_ne _ _ _ hne]
        · simp only [if_neg hvoid]
          split_ifs <;> simp [lookupN_eraseKeyN_ne _ _ _ hne]

/-- C4 (witness): concrete instances of all four amended clauses around an
open paragraph element. -/
theorem c4_text_suppression_amended_witness :
    (phase1Text (phase1Text initialPhase1State "x") "x" =
      phase1Text initialPhase1State "x") ∧
    (getElementInfo 1 (phase1Text (phase1Text (phase1Text c4state "x") "y") "x").elementStore =
      some (pushChunkUpd "x" (pushChunkUpd "y" (pushChunkUpd "x" pOpenRec)))) ∧
    (lookupN (phase1OnEndTag c4state).lastTextChunkMap 1 = none) ∧
    (lookupN (phase1Element 0 c4state "span" []).lastTextChunkMap 1 =
      lookupN c4state.lastTextChunkMap 1) := by
  refine ⟨?_, ?_, ?_, ?_⟩
  · exact c4_text_suppression_amended.1 initialPhase1State "x"
  · exact c4_text_suppression_amended.2.1 c4state "x" "y" 1 pOpenRec
      (by decide) (by decide) (by decide) (by decide) (by decide) (by decide) (by decide)
  · exact c4_text_suppression_amended.2.2.1 c4state 1 [] (by decide)
  · exact c4_text_suppression_amended.2.2.2 0 c4state "span" [] 1 (by decide)

/-- C4 (counterexample): after text `x` is delivered to an open paragraph, a
child span opens and closes, and `x` is delivered again, the second `x` is
still suppressed (the paragraph's chunk list stays `["x"]`); the claim's
discard-on-child-open rule would record it twice. -/
theorem c4_text_suppression_counterexample :
    ((runPhase1 0 [.start "p" [], .text "x", .start "span" [], .endTag,
        .text "x"]).elementStore.map (fun e => e.textChunks)) =
      [some ["x"], none] ∧
    some ["x"] ≠ some ["x", "x"] := by
  refine ⟨by decide, by decide⟩

/-- C6 (amended), universally over all stores: (a) an ordered container
renders its k-th child (0-based `k`) with list-item number `k + 1` at the
next nesting level — items are numbered by their 1-based position among the
container's children; (b) every list item of the outermost ordered list
(list level 1) renders the marker `n.` from its received number and re-trims
and re-indents every continuation line of its content with the fixed
two-space item indent, so the second nesting level is indented two spaces and
every deeper level is flattened to the same two spaces; (c) and (d) exhibit
both on concrete flat and three-level nested ordered lists. -/
theorem c6_nested_list_amended :
    (∀ store keep baseURI fuel listLevel children,
      convertChildrenOf store keep baseURI fuel "OL" listLevel children =
        String.join (children.enum.map (fun p =>
          convertNodeRecursive store keep baseURI fuel p.2 (listLevel + 1) true (p.1 + 1)))) ∧
    (∀ store keep baseURI fuel id info n,
      getElementInfo id store = some info → info.tagName = "LI" →
      keep.contains id = true →
      convertNodeRecursive store keep baseURI (fuel + 1) id 1 true n =
        toString n ++ "." ++ " " ++
          String.intercalate "\n"
            ((splitLines (jsTrim (elementTextOf store id ++
                convertChildrenOf store keep baseURI fuel "LI" 1
                  (getChildrenIds id store)))).enum.map
              (fun p => if 0 < p.1 then "  " ++ jsTrim p.2 else jsTrim p.2)) ++ "\n") ∧
    convert storeC6b keepC6b "https://example.com/" (some 1) = "1. a\n2. b\n3. c" ∧
    convert storeC6 keepC6 "https://example.com/" (some 1) =
      "1. a\n2. b\n  1. c\n  1. d\n  2. e" := by
  refine ⟨?_, ?_, by decide, by decide⟩
  · intro store keep baseURI fuel listLevel children
    simp [convertChildrenOf, String.join, List.foldl_map]
  · intro store keep baseURI fuel id info n hi ht hkeep
    have hj : String.join ([] : List String) = "" := rfl
    have he : ∀ t : String, "" ++ t = t := fun t => rfl
    simp only [convertNodeRecursive, hi, hkeep, ht]
    simp [convertChildrenOf, listIndentOf, dupStr, hj, he]

/-- C6 (witness): the amended theorem instantiated on the second top-level
item of the nested store — the item whose subtree holds the second and third
nesting levels — yields its marker `2.` and both deeper levels flattened to
the two-space indent. -/
theorem c6_nested_list_amended_witness :
    convertNodeRecursive storeC6 keepC6 "https://example.com/" 9 4 1 true 2 =
      "2. b\n  1. c\n  1. d\n  2. e\n" := by
  have h := c6_nested_list_amended.2.1 storeC6 keepC6 "https://example.com/" 8 4
    (mkEl 4 (some 2) "LI" "b") 2 (by decide) (by decide) (by decide)
  exact h.trans (by decide)
